import Mathlib

/-!
Formal model of the SmartCoat Optimizer core (src/smartcoat_app.py).

The embedding covers the four core functions of the file:
`calculate_changeover_matrix`, `build_cost_matrix`, `solve_job_sequence`
and the schedule-building part of `plot_gantt`.  Python integers are
modelled as `Int`; the expression `int((duration + changeover) / priority_weight)`
performs float division followed by truncation toward zero, which for the
integer magnitudes involved equals truncating integer division and is
modelled as `Int.tdiv`.  The OR-Tools routing solver called by
`solve_job_sequence` is an external library: its outcome is modelled as an
optional successor function `solution`, and a successful outcome of the
single-vehicle routing model with depot 0 satisfies `ValidSolution`
(the successor chain from the depot visits every node exactly once and
returns to the depot).  The route-extraction loop of the source is
modelled faithfully as `solve_loop`.
-/

/-- A job record, one row of the job DataFrame: columns Job_ID,
Chemical_Type, Slide_Type, Priority, Estimated_Time_mins. -/
structure Job where
  job_id : String
  chemical_type : String
  slide_type : String
  priority : Int
  estimated_time_mins : Int
deriving DecidableEq

/-- Model of `calculate_changeover_matrix(df, changeover_map)`
(src/smartcoat_app.py lines 110-119): a job-indexed square matrix,
diagonal left at its initial value 0, off-diagonal entries
`changeover_map.get((from_chem, to_chem), 999)`.  The Python dict is
modelled as an association list. -/
def calculate_changeover_matrix (df : List Job)
    (changeover_map : List ((String × String) × Int))
    (i j : Fin df.length) : Int :=
  if i = j then 0
  else (changeover_map.lookup
    ((df.get i).chemical_type, (df.get j).chemical_type)).getD 999

/-- Model of `build_cost_matrix(df, changeover_df)`
(src/smartcoat_app.py lines 121-135): diagonal 0, off-diagonal
`int((duration + changeover) / priority_weight)` with
`priority_weight = 4 - priority`.  The truncating conversion is
`Int.tdiv`; the theorems below assume priority ∈ \x7b1,2,3\x7d, under
which the Python division cannot raise. -/
def build_cost_matrix (df : List Job)
    (changeover_df : Fin df.length → Fin df.length → Int)
    (i j : Fin df.length) : Int :=
  if i = j then 0
  else Int.tdiv ((df.get j).estimated_time_mins + changeover_df i j)
    (4 - (df.get j).priority)

/-- Model of the route-extraction while loop of `solve_job_sequence`
(src/smartcoat_app.py lines 154-163): starting from the current index,
append the current node, step to the successor given by the solution,
and add the arc cost; the loop ends when the successor is the end copy
of the depot `dep`.  `fuel` bounds the iteration count (the routing
model guarantees termination after exactly n steps). -/
def solve_loop {n : Nat} (cost : Fin n → Fin n → Int) (ids : Fin n → String)
    (next : Fin n → Fin n) (dep : Fin n) : Nat → Fin n → List String × Int
  | 0, _ => ([], 0)
  | fuel + 1, node =>
    let nxt := next node
    let arc := cost node nxt
    if nxt = dep then ([ids node], arc)
    else
      let rest := solve_loop cost ids next dep fuel nxt
      (ids node :: rest.1, arc + rest.2)

/-- Model of `solve_job_sequence(cost_matrix, df)`
(src/smartcoat_app.py lines 137-165).  The routing model is
`RoutingIndexManager(n, 1, 0)`: one vehicle, depot node 0, so the
extraction starts at node 0 and stops at the end copy of node 0.  The
external OR-Tools search outcome is the `solution` argument (`none`
models `solution` being falsy, in which case the source returns
`None, None`).  An empty job list cannot provide a depot node and is
modelled as a failure. -/
def solve_job_sequence (df : List Job)
    (cost_matrix : Fin df.length → Fin df.length → Int)
    (solution : Option (Fin df.length → Fin df.length)) :
    Option (List String × Int) :=
  if h : 0 < df.length then
    match solution with
    | none => none
    | some next =>
      some (solve_loop cost_matrix (fun v => (df.get v).job_id) next
        ⟨0, h⟩ df.length ⟨0, h⟩)
  else none

/-- The chain of nodes visited by iterating the successor function of a
routing solution from the depot. -/
def route_nodes (n : Nat) (next : Fin n → Fin n) (dep : Fin n) : List (Fin n) :=
  (List.range n).map (fun k => next^[k] dep)

/-- Contract of a successful OR-Tools solution of the single-vehicle
routing model built by the source: the successor chain from the depot
visits all `n` nodes with no repetition and returns to the depot after
exactly `n` steps. -/
def ValidSolution (n : Nat) (next : Fin n → Fin n) (dep : Fin n) : Prop :=
  (route_nodes n next dep).Nodup ∧ next^[n] dep = dep

instance (n : Nat) (next : Fin n → Fin n) (dep : Fin n) :
    Decidable (ValidSolution n next dep) :=
  inferInstanceAs (Decidable ((route_nodes n next dep).Nodup ∧ next^[n] dep = dep))

/-- Sum of arc costs along consecutive pairs of a node list (the open
path part of a tour cost). -/
def arcSum {n : Nat} (cost : Fin n → Fin n → Int) : List (Fin n) → Int
  | a :: b :: rest => cost a b + arcSum cost (b :: rest)
  | _ => 0

/-- One scheduled bar of the Gantt chart: the dict appended to
`gantt_data` in `plot_gantt` (the matplotlib color entry is
rendering-only and omitted). -/
structure GanttTask where
  job : String
  start : Int
  duration : Int
  priority : Int
deriving DecidableEq

/-- Model of `df.set_index("Job_ID")` followed by `.loc[job_id]`
(first matching row; unique for well-formed job sets). -/
def job_lookup (df : List Job) (job_id : String) : Option Job :=
  df.find? (fun r => r.job_id == job_id)

/-- The changeover-insertion step of the `plot_gantt` loop body
(src/smartcoat_app.py lines 201-206): for the first route element there
is no previous job and the cursor is unchanged; otherwise, when the
changeover from the previous job is positive, the cursor position is
recorded as a changeover line and the cursor advances by the
changeover. -/
def gantt_step (co : String → String → Int) (prev : Option String)
    (job_id : String) (start_time : Int) : List Int × Int :=
  match prev with
  | none => ([], start_time)
  | some prev_job =>
    if co prev_job job_id > 0 then ([start_time], start_time + co prev_job job_id)
    else ([], start_time)

/-- Model of the schedule-building loop of `plot_gantt`
(src/smartcoat_app.py lines 195-215): walk the route with a cursor
`start_time`, and for every job after the first look up the changeover
from the previous job; when it is positive, record the cursor position
in `changeover_lines` and advance the cursor before placing the job.
Returns the tasks, the recorded changeover line positions, and the
final cursor value.  A route entry absent from the job table would
raise a lookup error in the source and yields `none` here. -/
def plot_gantt_aux (lookup : String → Option Job) (co : String → String → Int) :
    List String → Option String → Int → Option (List GanttTask × List Int × Int)
  | [], _, start_time => some ([], [], start_time)
  | job_id :: rest, prev, start_time =>
    match lookup job_id with
    | none => none
    | some job_info =>
      match plot_gantt_aux lookup co rest (some job_id)
          ((gantt_step co prev job_id start_time).2 + job_info.estimated_time_mins) with
      | none => none
      | some (tasks, lines, final) =>
        some (⟨job_id, (gantt_step co prev job_id start_time).2,
               job_info.estimated_time_mins, job_info.priority⟩ :: tasks,
              (gantt_step co prev job_id start_time).1 ++ lines, final)

/-- The schedule data computed by `plot_gantt(df, route, changeover_df)`:
cursor starts at 0, no previous job before the first route element.
`co` is the job-to-job changeover matrix accessed by labels
(`changeover_df.loc[prev_job, job_id]`). -/
def plot_gantt_schedule (df : List Job) (co : String → String → Int)
    (route : List String) : Option (List GanttTask × List Int × Int) :=
  plot_gantt_aux (job_lookup df) co route none 0

/-- The changeover gaps the Gantt walk inserts, relative to an optional
previous job: one gap per consecutive pair whose changeover is
positive. -/
def gapsFrom (co : String → String → Int) :
    Option String → List String → List Int
  | _, [] => []
  | none, a :: rest => gapsFrom co (some a) rest
  | some p, a :: rest =>
    (if co p a > 0 then [co p a] else []) ++ gapsFrom co (some a) rest

/-- The changeover gaps inserted along a whole route (no previous job
before the first element). -/
def insertedGaps (co : String → String → Int) (route : List String) : List Int :=
  gapsFrom co none route

/-- Concrete job A of the worked example of the specification
(chemical C1, priority 1, 30 minutes). -/
def jobA : Job := ⟨"A", "C1", "Type1", 1, 30⟩

/-- Concrete job B of the worked example (chemical C2, priority 3,
20 minutes). -/
def jobB : Job := ⟨"B", "C2", "Type1", 3, 20⟩

/-- Concrete job C of the worked example (chemical C1, priority 2,
25 minutes). -/
def jobC : Job := ⟨"C", "C1", "Type1", 2, 25⟩

/-- The three-job set of the worked example. -/
def df3 : List Job := [jobA, jobB, jobC]

/-- The changeover table of the worked example: identity pairs 0,
cross pairs 15 minutes. -/
def chmap3 : List ((String × String) × Int) :=
  [(("C1", "C1"), 0), (("C1", "C2"), 15), (("C2", "C1"), 15), (("C2", "C2"), 0)]

/-- The job-to-job changeover matrix of the worked example. -/
def changeover3 : Fin df3.length → Fin df3.length → Int :=
  calculate_changeover_matrix df3 chmap3

/-- The cost matrix of the worked example, built through the full
pipeline. -/
def cost3 : Fin df3.length → Fin df3.length → Int :=
  build_cost_matrix df3 changeover3

/-- A two-job set whose chemical transition C1 → C2 is exercised by the
missing-entry scenario. -/
def dfAB : List Job := [jobA, jobB]

/-- A changeover table holding only the identity pairs, so the ordered
pair (C1, C2) occurring between jobA and jobB has no entry. -/
def chmapMissing : List ((String × String) × Int) :=
  [(("C1", "C1"), 0), (("C2", "C2"), 0)]

/-- A concrete routing solution for the three-job example: the cyclic
successor 0 → 1 → 2 → 0. -/
def next3 : Fin df3.length → Fin df3.length :=
  fun v => ⟨(v.val + 1) % df3.length, Nat.mod_lt _ (by decide)⟩

/-- The job-to-job changeover matrix of the worked example accessed by
Job_ID labels, as `plot_gantt` reads it. -/
def coExample : String → String → Int :=
  fun p c => (([(("A", "C"), 0), (("C", "A"), 0), (("A", "B"), 15),
    (("B", "A"), 15), (("C", "B"), 15), (("B", "C"), 15)] :
    List ((String × String) × Int)).lookup (p, c)).getD 0

/-- The route A, C, B of the worked example. -/
def routeACB : List String := ["A", "C", "B"]

/-- The expected Gantt tasks for route A, C, B: no gap between A and C
(same chemical), a 15-minute gap before B. -/
def tasksACB : List GanttTask :=
  [⟨"A", 0, 30, 1⟩, ⟨"C", 30, 25, 2⟩, ⟨"B", 70, 20, 3⟩]

/-! ## Arithmetic helpers -/

/-- Truncating division agrees with flooring division on non-negative
operands. -/
theorem tdiv_eq_fdiv_of_nonneg {a b : Int} (ha : 0 ≤ a) (hb : 0 ≤ b) :
    a.tdiv b = a.fdiv b := by
  rw [Int.tdiv_eq_ediv ha hb, Int.fdiv_eq_ediv _ hb]

/-! ## Cost-model claims -/

/-- C1: for every job sequence and changeover matrix, the cost matrix
built by `build_cost_matrix` has entry (i, j) for i ≠ j equal to
floor((duration(j) + changeover(i, j)) / (4 - priority(j))), diagonal
entries 0, and, when the changeover entries and durations are
non-negative and every priority lies in \x7b1, 2, 3\x7d, every entry
non-negative. -/
theorem C1_build_cost_matrix_entries (df : List Job)
    (co : Fin df.length → Fin df.length → Int)
    (hco : ∀ i j, 0 ≤ co i j)
    (hdur : ∀ j : Fin df.length, 0 ≤ (df.get j).estimated_time_mins)
    (hprio : ∀ j : Fin df.length,
      (df.get j).priority = 1 ∨ (df.get j).priority = 2 ∨ (df.get j).priority = 3) :
    (∀ i j, i ≠ j → build_cost_matrix df co i j =
        Int.fdiv ((df.get j).estimated_time_mins + co i j) (4 - (df.get j).priority))
    ∧ (∀ i, build_cost_matrix df co i i = 0)
    ∧ (∀ i j, 0 ≤ build_cost_matrix df co i j) := by
  have hnum : ∀ i j : Fin df.length, 0 ≤ (df.get j).estimated_time_mins + co i j :=
    fun i j => add_nonneg (hdur j) (hco i j)
  have hden : ∀ j : Fin df.length, 0 ≤ 4 - (df.get j).priority := by
    intro j; rcases hprio j with h | h | h <;> omega
  refine ⟨?_, ?_, ?_⟩
  · intro i j hij
    rw [build_cost_matrix, if_neg hij]
    exact tdiv_eq_fdiv_of_nonneg (hnum i j) (hden j)
  · intro i
    rw [build_cost_matrix, if_pos rfl]
  · intro i j
    by_cases hij : i = j
    · subst hij; rw [build_cost_matrix, if_pos rfl]
    · rw [build_cost_matrix, if_neg hij]
      exact Int.tdiv_nonneg (hnum i j) (hden j)

/-- C1 witness: the worked three-job example satisfies the
preconditions, so its cost matrix has the floored entries, zero
diagonal and non-negative entries. -/
theorem C1_witness :
    (∀ i j, i ≠ j → build_cost_matrix df3 changeover3 i j =
        Int.fdiv ((df3.get j).estimated_time_mins + changeover3 i j)
          (4 - (df3.get j).priority))
    ∧ (∀ i, build_cost_matrix df3 changeover3 i i = 0)
    ∧ (∀ i j, 0 ≤ build_cost_matrix df3 changeover3 i j) :=
  C1_build_cost_matrix_entries df3 changeover3 (by decide) (by decide) (by decide)

/-- C8: when priority(j) ∈ \x7b1, 2, 3\x7d the divisor 4 - priority(j)
used by `build_cost_matrix` is strictly positive (so the Python
division cannot divide by zero), and the truncating division applied to
non-negative operands agrees with flooring division. -/
theorem C8_priority_weight_safe (df : List Job)
    (co : Fin df.length → Fin df.length → Int) (i j : Fin df.length)
    (hprio : (df.get j).priority = 1 ∨ (df.get j).priority = 2 ∨
      (df.get j).priority = 3) :
    0 < 4 - (df.get j).priority
    ∧ (∀ d c : Int, 0 ≤ d → 0 ≤ c →
        Int.tdiv (d + c) (4 - (df.get j).priority) =
          Int.fdiv (d + c) (4 - (df.get j).priority))
    ∧ (i ≠ j → 0 ≤ (df.get j).estimated_time_mins → 0 ≤ co i j →
        build_cost_matrix df co i j =
          Int.fdiv ((df.get j).estimated_time_mins + co i j)
            (4 - (df.get j).priority)) := by
  have hpos : 0 < 4 - (df.get j).priority := by
    rcases hprio with h | h | h <;> omega
  refine ⟨hpos, ?_, ?_⟩
  · intro d c hd hc
    exact tdiv_eq_fdiv_of_nonneg (add_nonneg hd hc) (le_of_lt hpos)
  · intro hij hd hc
    rw [build_cost_matrix, if_neg hij]
    exact tdiv_eq_fdiv_of_nonneg (add_nonneg hd hc) (le_of_lt hpos)

/-- C8 witness: at entry (0, 1) of the worked example the divisor is
positive and the truncating division agrees with flooring division. -/
theorem C8_witness :
    0 < 4 - (df3.get ⟨1, by decide⟩).priority
    ∧ (∀ d c : Int, 0 ≤ d → 0 ≤ c →
        Int.tdiv (d + c) (4 - (df3.get ⟨1, by decide⟩).priority) =
          Int.fdiv (d + c) (4 - (df3.get ⟨1, by decide⟩).priority))
    ∧ ((⟨0, by decide⟩ : Fin df3.length) ≠ ⟨1, by decide⟩ →
        0 ≤ (df3.get ⟨1, by decide⟩).estimated_time_mins →
        0 ≤ changeover3 ⟨0, by decide⟩ ⟨1, by decide⟩ →
        build_cost_matrix df3 changeover3 ⟨0, by decide⟩ ⟨1, by decide⟩ =
          Int.fdiv ((df3.get ⟨1, by decide⟩).estimated_time_mins +
              changeover3 ⟨0, by decide⟩ ⟨1, by decide⟩)
            (4 - (df3.get ⟨1, by decide⟩).priority)) :=
  C8_priority_weight_safe df3 changeover3 ⟨0, by decide⟩ ⟨1, by decide⟩ (by decide)

/-- C6: with the successor duration d ≥ 1 and changeover c ≥ 0 held
fixed, the cost-matrix entry for a priority-1 successor is strictly
below the entry for the same successor at priority 3, and the entry is
monotonically non-increasing as the priority improves from 3 to 2 to
1. -/
theorem C6_priority_cost_monotone (j0 : Job) (id0 ct st : String) (d c : Int)
    (hd : 1 ≤ d) (hc : 0 ≤ c) :
    build_cost_matrix [j0, ⟨id0, ct, st, 1, d⟩] (fun _ _ => c)
        ⟨0, by simp⟩ ⟨1, by simp⟩ <
      build_cost_matrix [j0, ⟨id0, ct, st, 3, d⟩] (fun _ _ => c)
        ⟨0, by simp⟩ ⟨1, by simp⟩
    ∧ build_cost_matrix [j0, ⟨id0, ct, st, 1, d⟩] (fun _ _ => c)
        ⟨0, by simp⟩ ⟨1, by simp⟩ ≤
      build_cost_matrix [j0, ⟨id0, ct, st, 2, d⟩] (fun _ _ => c)
        ⟨0, by simp⟩ ⟨1, by simp⟩
    ∧ build_cost_matrix [j0, ⟨id0, ct, st, 2, d⟩] (fun _ _ => c)
        ⟨0, by simp⟩ ⟨1, by simp⟩ ≤
      build_cost_matrix [j0, ⟨id0, ct, st, 3, d⟩] (fun _ _ => c)
        ⟨0, by simp⟩ ⟨1, by simp⟩ := by
  have hne : (⟨0, by simp⟩ : Fin ([j0, ⟨id0, ct, st, 1, d⟩] : List Job).length) ≠
      ⟨1, by simp⟩ := by simp
  have h1 : build_cost_matrix [j0, ⟨id0, ct, st, 1, d⟩] (fun _ _ => c)
      ⟨0, by simp⟩ ⟨1, by simp⟩ = Int.tdiv (d + c) 3 := by
    rw [build_cost_matrix, if_neg hne]
    norm_num [List.get]
  have h2 : build_cost_matrix [j0, ⟨id0, ct, st, 2, d⟩] (fun _ _ => c)
      ⟨0, by simp⟩ ⟨1, by simp⟩ = Int.tdiv (d + c) 2 := by
    rw [build_cost_matrix, if_neg hne]
    norm_num [List.get]
  have h3 : build_cost_matrix [j0, ⟨id0, ct, st, 3, d⟩] (fun _ _ => c)
      ⟨0, by simp⟩ ⟨1, by simp⟩ = Int.tdiv (d + c) 1 := by
    rw [build_cost_matrix, if_neg hne]
    norm_num [List.get]
  have hm : (0 : Int) ≤ d + c := by omega
  have e1 : Int.tdiv (d + c) 3 = (d + c) / 3 := Int.tdiv_eq_ediv hm (by norm_num)
  have e2 : Int.tdiv (d + c) 2 = (d + c) / 2 := Int.tdiv_eq_ediv hm (by norm_num)
  have e3 : Int.tdiv (d + c) 1 = (d + c) / 1 := Int.tdiv_eq_ediv hm (by norm_num)
  rw [h1, h2, h3, e1, e2, e3]
  refine ⟨?_, ?_, ?_⟩ <;> omega

/-- C6 witness: duration 20 and changeover 15 give entries 11, 17 and
35 for priorities 1, 2 and 3. -/
theorem C6_witness :
    build_cost_matrix [jobA, ⟨"B", "C2", "Type1", 1, 20⟩] (fun _ _ => 15)
        ⟨0, by decide⟩ ⟨1, by decide⟩ <
      build_cost_matrix [jobA, ⟨"B", "C2", "Type1", 3, 20⟩] (fun _ _ => 15)
        ⟨0, by decide⟩ ⟨1, by decide⟩
    ∧ build_cost_matrix [jobA, ⟨"B", "C2", "Type1", 1, 20⟩] (fun _ _ => 15)
        ⟨0, by decide⟩ ⟨1, by decide⟩ ≤
      build_cost_matrix [jobA, ⟨"B", "C2", "Type1", 2, 20⟩] (fun _ _ => 15)
        ⟨0, by decide⟩ ⟨1, by decide⟩
    ∧ build_cost_matrix [jobA, ⟨"B", "C2", "Type1", 2, 20⟩] (fun _ _ => 15)
        ⟨0, by decide⟩ ⟨1, by decide⟩ ≤
      build_cost_matrix [jobA, ⟨"B", "C2", "Type1", 3, 20⟩] (fun _ _ => 15)
        ⟨0, by decide⟩ ⟨1, by decide⟩ :=
  C6_priority_cost_monotone jobA "B" "C2" "Type1" 20 15 (by norm_num) (by norm_num)

/-! ## Changeover-matrix claims -/

/-- C10: the job-to-job changeover matrix has diagonal entries 0
regardless of the configured identity changeover, off-diagonal entries
equal to the configured value for the ordered chemical pair when that
pair is present (also when two distinct jobs share a chemical type),
and 999 when the pair is absent. -/
theorem C10_changeover_matrix_entries (df : List Job)
    (m : List ((String × String) × Int)) (i j : Fin df.length) :
    calculate_changeover_matrix df m i i = 0
    ∧ (i ≠ j → ∀ v, m.lookup ((df.get i).chemical_type, (df.get j).chemical_type) =
        some v → calculate_changeover_matrix df m i j = v)
    ∧ (i ≠ j → m.lookup ((df.get i).chemical_type, (df.get j).chemical_type) =
        none → calculate_changeover_matrix df m i j = 999) := by
  refine ⟨?_, ?_, ?_⟩
  · rw [calculate_changeover_matrix, if_pos rfl]
  · intro hij v hv
    rw [calculate_changeover_matrix, if_neg hij, hv, Option.getD_some]
  · intro hij hv
    rw [calculate_changeover_matrix, if_neg hij, hv, Option.getD_none]

/-- C10 witness: in the worked example, jobs A and C share chemical C1
and get the configured identity changeover 0 between distinct jobs via
the present pair (C1, C1); with the table of `chmapMissing` the absent
pair (C1, C2) gets 999; and the diagonal entry of job B is 0. -/
theorem C10_witness :
    calculate_changeover_matrix df3 chmap3 ⟨1, by decide⟩ ⟨1, by decide⟩ = 0
    ∧ calculate_changeover_matrix df3 chmap3 ⟨0, by decide⟩ ⟨2, by decide⟩ = 0
    ∧ calculate_changeover_matrix dfAB chmapMissing ⟨0, by decide⟩ ⟨1, by decide⟩ = 999 := by
  refine ⟨(C10_changeover_matrix_entries df3 chmap3 ⟨1, by decide⟩ ⟨1, by decide⟩).1,
    (C10_changeover_matrix_entries df3 chmap3 ⟨0, by decide⟩ ⟨2, by decide⟩).2.1
      (by decide) 0 (by decide),
    (C10_changeover_matrix_entries dfAB chmapMissing ⟨0, by decide⟩
      ⟨1, by decide⟩).2.2 (by decide) (by decide)⟩

/-- C3 counterexample: with the ordered chemical pair (C1, C2) between
jobA and jobB absent from the table, building the changeover matrix
does not fail: it silently substitutes the constant 999 for the missing
entry. -/
theorem C3_counterexample :
    calculate_changeover_matrix dfAB chmapMissing ⟨0, by decide⟩ ⟨1, by decide⟩ = 999 := by
  decide

/-- C3 amended: when an ordered chemical pair occurring between two
distinct jobs has no entry in the table, `calculate_changeover_matrix`
substitutes the fallback constant 999 for that entry; no
MissingChangeoverEntry error exists in the code. -/
theorem C3_amended_fallback (df : List Job)
    (m : List ((String × String) × Int)) (i j : Fin df.length) (hij : i ≠ j)
    (hmiss : m.lookup ((df.get i).chemical_type, (df.get j).chemical_type) = none) :
    calculate_changeover_matrix df m i j = 999 := by
  rw [calculate_changeover_matrix, if_neg hij, hmiss, Option.getD_none]

/-- C3 amended witness: the missing pair (C1, C2) of `chmapMissing` is
substituted with 999. -/
theorem C3_amended_witness :
    calculate_changeover_matrix dfAB chmapMissing ⟨0, by decide⟩ ⟨1, by decide⟩ = 999 :=
  C3_amended_fallback dfAB chmapMissing ⟨0, by decide⟩ ⟨1, by decide⟩
    (by decide) (by decide)

/-! ## Sequence-solver lemmas -/

/-- In a valid solution the successor chain does not return to the
depot strictly before step n. -/
theorem valid_not_dep {n : Nat} {next : Fin n → Fin n} {dep : Fin n}
    (hv : ValidSolution n next dep) :
    ∀ k, 0 < k → k < n → next^[k] dep ≠ dep := by
  intro k hk0 hkn heq
  have hnd := hv.1
  rw [route_nodes] at hnd
  have hpw := List.pairwise_iff_getElem.mp hnd 0 k
    (by simp; omega) (by simp; omega) hk0
  apply hpw
  simp [Function.iterate_zero_apply, heq]

/-- Splitting a mapped range at its head. -/
theorem range_map_shift {α : Type} (g : Nat → α) (f s : Nat) :
    (List.range (f + 1)).map (fun t => g (s + t)) =
      g s :: (List.range f).map (fun t => g (s + 1 + t)) := by
  rw [List.range_succ_eq_map, List.map_cons, List.map_map]
  refine congrArg₂ _ (by simp) ?_
  apply List.map_congr_left
  intro a _
  simp [Function.comp]
  congr 1
  omega

/-- Unfolding of the route-extraction loop along the successor chain of
a solution: starting `fuel` steps before the end of the chain, the loop
returns the identifiers of the remaining chain and the sum of the arc
costs it traverses, the arc into the end depot included. -/
theorem solve_loop_orbit {n : Nat} (cost : Fin n → Fin n → Int)
    (ids : Fin n → String) (next : Fin n → Fin n) (dep : Fin n)
    (hne : ∀ k, 0 < k → k < n → next^[k] dep ≠ dep)
    (hcyc : next^[n] dep = dep) :
    ∀ fuel s, 1 ≤ fuel → s + fuel = n →
      solve_loop cost ids next dep fuel (next^[s] dep) =
        ((List.range fuel).map (fun t => ids (next^[s + t] dep)),
         ((List.range fuel).map
           (fun t => cost (next^[s + t] dep) (next^[s + t + 1] dep))).sum) := by
  intro fuel
  induction fuel with
  | zero => intro s h1 _; omega
  | succ f ih =>
    intro s h1 h2
    have hstep : next (next^[s] dep) = next^[s + 1] dep :=
      (Function.iterate_succ_apply' next s dep).symm
    rcases Nat.eq_zero_or_pos f with hf | hf
    · subst hf
      have hsn : s + 1 = n := by omega
      have hdep : next (next^[s] dep) = dep := by
        rw [hstep, hsn, hcyc]
      have hval : next^[s + 1] dep = dep := by
        rw [hsn, hcyc]
      simp [solve_loop, hdep, hval, List.range_succ, Prod.mk.injEq]
      rw [← Function.iterate_succ_apply, hval]
    · have hs1 : s + 1 < n := by omega
      have hnd : next (next^[s] dep) ≠ dep := by
        rw [hstep]; exact hne (s + 1) (by omega) hs1
      have hrec := ih (s + 1) hf (by omega)
      simp only [solve_loop, if_neg hnd]
      rw [hstep, hrec]
      rw [range_map_shift (fun t => ids (next^[t] dep)) f s,
        range_map_shift (fun t => cost (next^[t] dep) (next^[t + 1] dep)) f s,
        List.sum_cons]

/-- Running the extraction loop of a valid solution from the depot with
fuel n yields the identifiers of the visited chain and the closed-tour
arc-cost sum. -/
theorem solve_loop_run {n : Nat} (cost : Fin n → Fin n → Int)
    (ids : Fin n → String) (next : Fin n → Fin n) (dep : Fin n)
    (hv : ValidSolution n next dep) (hn : 0 < n) :
    solve_loop cost ids next dep n dep =
      ((route_nodes n next dep).map ids,
       ((List.range n).map
         (fun t => cost (next^[t] dep) (next^[t + 1] dep))).sum) := by
  have h0 : next^[0] dep = dep := Function.iterate_zero_apply next dep
  have hmain := solve_loop_orbit cost ids next dep (valid_not_dep hv) hv.2 n 0 hn
    (by omega)
  rw [h0] at hmain
  rw [hmain, route_nodes, List.map_map]
  simp [Function.comp]

/-- The node chain of a valid solution is a permutation of all nodes. -/
theorem route_nodes_perm {n : Nat} {next : Fin n → Fin n} {dep : Fin n}
    (hv : ValidSolution n next dep) :
    (route_nodes n next dep).Perm (List.finRange n) := by
  have hsub : route_nodes n next dep ⊆ List.finRange n :=
    fun x _ => List.mem_finRange x
  have hsp : List.Subperm (route_nodes n next dep) (List.finRange n) :=
    hv.1.subperm hsub
  exact hsp.perm_of_length_le (by simp [route_nodes, List.length_finRange])

/-- Mapping the job identifiers over all node indices reproduces the
Job_ID column of the job list. -/
theorem finRange_map_job_id (df : List Job) :
    (List.finRange df.length).map (fun v => (df.get v).job_id) =
      df.map Job.job_id := by
  rw [← List.ofFn_eq_map]
  exact List.ofFn_getElem_eq_map df Job.job_id

/-- The open-path arc sum of a mapped range plus the closing arc equals
the full consecutive-arc sum. -/
theorem arcSum_orbit {n : Nat} (cost : Fin n → Fin n → Int) (g : Nat → Fin n) :
    ∀ m s, 1 ≤ m →
      arcSum cost ((List.range m).map (fun t => g (s + t))) +
        cost (g (s + m - 1)) (g (s + m)) =
      ((List.range m).map (fun t => cost (g (s + t)) (g (s + t + 1)))).sum := by
  intro m
  induction m with
  | zero => intro s h; omega
  | succ f ih =>
    intro s _
    cases f with
    | zero =>
      simp [List.range_succ, arcSum]
    | succ f' =>
      rw [range_map_shift g (f' + 1) s, range_map_shift g f' (s + 1), arcSum,
        ← range_map_shift g f' (s + 1),
        range_map_shift (fun t => cost (g t) (g (t + 1))) (f' + 1) s,
        List.sum_cons]
      have hc1 : s + (f' + 1 + 1) - 1 = s + 1 + (f' + 1) - 1 := by omega
      have hc2 : s + (f' + 1 + 1) = s + 1 + (f' + 1) := by omega
      rw [hc1, hc2, add_assoc, ih (s + 1) (by omega)]

/-! ## Sequence-solver claims -/

/-- C2: whenever the solver succeeds (the external search returns a
valid routing solution), the route returned by `solve_job_sequence` is
a permutation of all Job_IDs of the input, and its first element is the
Job_ID of the job at index 0 of the input order (the anchor). -/
theorem C2_route_is_anchored_permutation (df : List Job) (h : 0 < df.length)
    (cost : Fin df.length → Fin df.length → Int)
    (next : Fin df.length → Fin df.length)
    (hv : ValidSolution df.length next ⟨0, h⟩) :
    ∃ route total,
      solve_job_sequence df cost (some next) = some (route, total)
      ∧ route.Perm (df.map Job.job_id)
      ∧ route.head? = some ((df.get ⟨0, h⟩).job_id) := by
  have hrun := solve_loop_run cost (fun v => (df.get v).job_id) next ⟨0, h⟩ hv h
  refine ⟨(route_nodes df.length next ⟨0, h⟩).map (fun v => (df.get v).job_id),
    ((List.range df.length).map
      (fun t => cost (next^[t] ⟨0, h⟩) (next^[t + 1] ⟨0, h⟩))).sum, ?_, ?_, ?_⟩
  · simp only [solve_job_sequence, dif_pos h]
    rw [hrun]
  · have hperm := (route_nodes_perm hv).map (fun v => (df.get v).job_id)
    rw [finRange_map_job_id df] at hperm
    exact hperm
  · rw [route_nodes, List.map_map, List.head?_map, List.head?_range,
      if_neg (by omega : ¬df.length = 0)]
    simp [Function.comp]

/-- C2 witness: the three-job worked example with the cyclic solution
0 → 1 → 2 → 0 yields an anchored permutation of its Job_IDs. -/
theorem C2_witness :
    ∃ route total,
      solve_job_sequence df3 cost3 (some next3) = some (route, total)
      ∧ route.Perm (df3.map Job.job_id)
      ∧ route.head? = some ((df3.get ⟨0, by decide⟩).job_id) :=
  C2_route_is_anchored_permutation df3 (by decide) cost3 next3 (by decide)

/-- C4: when the solver succeeds, the returned total equals the sum of
the cost-matrix arcs along consecutive pairs of the visited node chain
plus the closing arc from the last visited node back to the anchor,
while the returned route lists exactly the n visited jobs and omits the
return node. -/
theorem C4_total_includes_closing_arc (df : List Job) (h : 0 < df.length)
    (cost : Fin df.length → Fin df.length → Int)
    (next : Fin df.length → Fin df.length)
    (hv : ValidSolution df.length next ⟨0, h⟩) :
    ∃ route total nodes lastnode,
      solve_job_sequence df cost (some next) = some (route, total)
      ∧ route = nodes.map (fun v => (df.get v).job_id)
      ∧ nodes.length = df.length
      ∧ nodes.head? = some ⟨0, h⟩
      ∧ nodes.getLast? = some lastnode
      ∧ total = arcSum cost nodes + cost lastnode ⟨0, h⟩ := by
  have hrun := solve_loop_run cost (fun v => (df.get v).job_id) next ⟨0, h⟩ hv h
  refine ⟨(route_nodes df.length next ⟨0, h⟩).map (fun v => (df.get v).job_id),
    ((List.range df.length).map
      (fun t => cost (next^[t] ⟨0, h⟩) (next^[t + 1] ⟨0, h⟩))).sum,
    route_nodes df.length next ⟨0, h⟩,
    next^[df.length - 1] ⟨0, h⟩, ?_, rfl, ?_, ?_, ?_, ?_⟩
  · simp only [solve_job_sequence, dif_pos h]
    rw [hrun]
  · simp [route_nodes]
  · rw [route_nodes, List.head?_map, List.head?_range,
      if_neg (by omega : ¬df.length = 0)]
    simp
  · rw [route_nodes, List.getLast?_map, List.getLast?_range,
      if_neg (by omega : ¬df.length = 0)]
    simp
  · have harc := arcSum_orbit cost (fun t => next^[t] ⟨0, h⟩) df.length 0 h
    simp only [Nat.zero_add] at harc
    rw [hv.2] at harc
    rw [route_nodes]
    exact harc.symm

/-- C4 witness: in the three-job worked example with the cyclic
solution, the returned total is the closed-tour cost. -/
theorem C4_witness :
    ∃ route total nodes lastnode,
      solve_job_sequence df3 cost3 (some next3) = some (route, total)
      ∧ route = nodes.map (fun v => (df3.get v).job_id)
      ∧ nodes.length = df3.length
      ∧ nodes.head? = some ⟨0, by decide⟩
      ∧ nodes.getLast? = some lastnode
      ∧ total = arcSum cost3 nodes + cost3 lastnode ⟨0, by decide⟩ :=
  C4_total_includes_closing_arc df3 (by decide) cost3 next3 (by decide)

/-- C9: for every outcome of the external search, `solve_job_sequence`
either fails with the well-defined failure value or returns a complete
route: a permutation of all Job_IDs of full length n, never a partial
or invalid one.  The function is pure, so a failure leaves no state
behind. -/
theorem C9_complete_route_or_failure (df : List Job) (h : 0 < df.length)
    (cost : Fin df.length → Fin df.length → Int)
    (sol : Option (Fin df.length → Fin df.length))
    (hv : ∀ next, sol = some next → ValidSolution df.length next ⟨0, h⟩) :
    solve_job_sequence df cost sol = none
    ∨ ∃ route total,
        solve_job_sequence df cost sol = some (route, total)
        ∧ route.Perm (df.map Job.job_id)
        ∧ route.length = df.length := by
  cases sol with
  | none =>
    left
    simp [solve_job_sequence, dif_pos h]
  | some next =>
    right
    have hvs := hv next rfl
    have hrun := solve_loop_run cost (fun v => (df.get v).job_id) next ⟨0, h⟩ hvs h
    refine ⟨(route_nodes df.length next ⟨0, h⟩).map (fun v => (df.get v).job_id),
      ((List.range df.length).map
        (fun t => cost (next^[t] ⟨0, h⟩) (next^[t + 1] ⟨0, h⟩))).sum, ?_, ?_, ?_⟩
    · simp only [solve_job_sequence, dif_pos h]
      rw [hrun]
    · have hperm := (route_nodes_perm hvs).map (fun v => (df.get v).job_id)
      rw [finRange_map_job_id df] at hperm
      exact hperm
    · simp [route_nodes]

/-- C9 witness: both outcomes at the three-job worked example; the
`some` branch returns a full permutation. -/
theorem C9_witness :
    solve_job_sequence df3 cost3 (some next3) = none
    ∨ ∃ route total,
        solve_job_sequence df3 cost3 (some next3) = some (route, total)
        ∧ route.Perm (df3.map Job.job_id)
        ∧ route.length = df3.length :=
  C9_complete_route_or_failure df3 (by decide) cost3 (some next3)
    (fun next hn => by cases hn; decide)

/-- C7 counterexample: the source has no n ≤ 1 short-circuit: even for
a single-job input the route comes out of the unconditional solver
invocation, so the result depends on the search outcome.  At the
concrete single-job input jobA with the search outcome absent
(`solution` falsy), `solve_job_sequence` returns the failure value and
not the trivial route — refuting the claim that the trivial route is
returned without invoking any solver search. -/
theorem C7_counterexample :
    solve_job_sequence [jobA] (build_cost_matrix [jobA] (fun _ _ => 0)) none = none
    ∧ solve_job_sequence [jobA] (build_cost_matrix [jobA] (fun _ _ => 0)) none ≠
        some ([jobA.job_id], 0) := by
  decide

/-- C7 amended: a single-job input is still put through the solver
invocation: when the external search fails the function returns the
failure value None, None, and whenever it succeeds (with the unique
successor function on one node, which maps the depot to itself) the
returned route is that one job with total cost 0, the zero diagonal
arc of the cost matrix being the only arc traversed. -/
theorem C7_amended_single_job (j : Job)
    (co : Fin ([j] : List Job).length → Fin ([j] : List Job).length → Int)
    (sol : Option (Fin ([j] : List Job).length → Fin ([j] : List Job).length)) :
    solve_job_sequence [j] (build_cost_matrix [j] co) sol =
      sol.map (fun _ => ([j.job_id], 0)) := by
  have h : 0 < ([j] : List Job).length := by simp
  cases sol with
  | none => simp [solve_job_sequence, dif_pos h]
  | some next =>
    simp only [solve_job_sequence, dif_pos h, Option.map_some]
    simp [solve_loop, build_cost_matrix]
    intro habs
    exact absurd (Fin.eq_zero _).symm habs

/-! ## Timeline-assembly claims -/

/-- Invariant of the Gantt schedule walk: the produced tasks follow the
route in order, one changeover line is recorded per positive-changeover
step, and the final cursor equals the starting cursor plus all placed
durations plus all inserted gaps. -/
theorem plot_gantt_aux_spec (lookup : String → Option Job)
    (co : String → String → Int) :
    ∀ (route : List String) (prev : Option String) (s : Int)
      (tasks : List GanttTask) (lines : List Int) (final : Int),
      plot_gantt_aux lookup co route prev s = some (tasks, lines, final) →
      tasks.map GanttTask.job = route
      ∧ lines.length = (gapsFrom co prev route).length
      ∧ final = s + (tasks.map GanttTask.duration).sum +
          (gapsFrom co prev route).sum := by
  intro route
  induction route with
  | nil =>
    intro prev s tasks lines final heq
    rw [plot_gantt_aux] at heq
    simp only [Option.some.injEq, Prod.mk.injEq] at heq
    obtain ⟨h1, h2, h3⟩ := heq
    subst h1; subst h2; subst h3
    refine ⟨rfl, ?_, ?_⟩
    · cases prev <;> simp [gapsFrom]
    · cases prev <;> simp [gapsFrom]
  | cons a rest ih =>
    intro prev s tasks lines final heq
    rw [plot_gantt_aux] at heq
    split at heq
    · exact Option.noConfusion heq
    · rename_i job_info hlook
      split at heq
      · exact Option.noConfusion heq
      · rename_i tasks' lines' final' hrec
        simp only [Option.some.injEq, Prod.mk.injEq] at heq
        obtain ⟨h1, h2, h3⟩ := heq
        subst h1; subst h2; subst h3
        obtain ⟨ih1, ih2, ih3⟩ := ih (some a)
          ((gantt_step co prev a s).2 + job_info.estimated_time_mins)
          tasks' lines' final' hrec
        refine ⟨by simp [ih1], ?_, ?_⟩
        · cases prev with
          | none => simp [gantt_step, gapsFrom, ih2]
          | some p =>
            by_cases hpos : co p a > 0
            · simp [gantt_step, gapsFrom, hpos, ih2]
            · simp [gantt_step, gapsFrom, hpos, ih2]
        · cases prev with
          | none =>
            simp only [gantt_step] at ih3
            simp only [gapsFrom, List.map_cons, List.sum_cons]
            omega
          | some p =>
            by_cases hpos : co p a > 0
            · simp only [gantt_step, if_pos hpos] at ih3
              simp only [gantt_step, if_pos hpos, gapsFrom, List.map_cons,
                List.sum_cons, List.sum_append]
              simp [hpos]
              omega
            · simp only [gantt_step, if_neg hpos] at ih3
              simp only [gantt_step, if_neg hpos, gapsFrom, List.map_cons,
                List.sum_cons]
              simp [hpos]
              omega

/-- The first placed task of a non-empty route starts at the cursor
position produced by the gap step for that first element. -/
theorem plot_gantt_aux_head (lookup : String → Option Job)
    (co : String → String → Int) (a : String) (rest : List String)
    (prev : Option String) (s : Int) (tasks : List GanttTask)
    (lines : List Int) (final : Int)
    (heq : plot_gantt_aux lookup co (a :: rest) prev s = some (tasks, lines, final)) :
    ∃ t0 ts, tasks = t0 :: ts ∧ t0.start = (gantt_step co prev a s).2 := by
  rw [plot_gantt_aux] at heq
  split at heq
  · exact Option.noConfusion heq
  · rename_i job_info hlook
    split at heq
    · exact Option.noConfusion heq
    · rename_i tasks' lines' final' hrec
      simp only [Option.some.injEq, Prod.mk.injEq] at heq
      obtain ⟨h1, _, _⟩ := heq
      exact ⟨_, _, h1.symm, rfl⟩

/-- C5: whenever the Gantt walk succeeds on a route, the first job is
placed at time 0, the tasks follow the route in order, a changeover
line is recorded exactly once per route step whose changeover is
positive, and the final cursor (the total span) equals the sum of the
placed durations plus the sum of the inserted changeover gaps. -/
theorem C5_timeline_span (df : List Job) (co : String → String → Int)
    (route : List String) (tasks : List GanttTask) (lines : List Int)
    (final : Int)
    (h : plot_gantt_schedule df co route = some (tasks, lines, final)) :
    (route ≠ [] → ∃ t0 ts, tasks = t0 :: ts ∧ t0.start = 0)
    ∧ tasks.map GanttTask.job = route
    ∧ lines.length = (insertedGaps co route).length
    ∧ final = (tasks.map GanttTask.duration).sum + (insertedGaps co route).sum := by
  obtain ⟨h1, h2, h3⟩ := plot_gantt_aux_spec (job_lookup df) co route none 0
    tasks lines final h
  refine ⟨?_, h1, h2, by simpa [insertedGaps] using h3⟩
  intro hne
  cases route with
  | nil => exact absurd rfl hne
  | cons a rest =>
    obtain ⟨t0, ts, hts, hstart⟩ := plot_gantt_aux_head (job_lookup df) co a rest
      none 0 tasks lines final h
    exact ⟨t0, ts, hts, by simpa [gantt_step] using hstart⟩

/-- C5 witness: the worked example on route A, C, B places A at 0,
inserts one 15-minute gap before B, and spans 90 = 75 + 15 minutes. -/
theorem C5_witness :
    (routeACB ≠ [] → ∃ t0 ts, tasksACB = t0 :: ts ∧ t0.start = 0)
    ∧ tasksACB.map GanttTask.job = routeACB
    ∧ ([55] : List Int).length = (insertedGaps coExample routeACB).length
    ∧ (90 : Int) = (tasksACB.map GanttTask.duration).sum +
        (insertedGaps coExample routeACB).sum :=
  C5_timeline_span df3 coExample routeACB tasksACB [55] 90 (by decide)
